import Mathlib

/-!
Verification of `src/packages/ariakit-core/src/utils/events.ts`.

Shallow embedding of the module's functions and of the host (browser)
behaviour they rely on: timers, capture-phase listeners, event dispatch
and frame trees are modelled as explicit data, and each source function
becomes a Lean function over that data.
-/

namespace Events

/-! ## queueBeforeEvent (events.ts lines 171-198)

Source:
```
export function queueBeforeEvent(element, type, callback, timeout) {
  const createTimer = (callback) => {
    if (timeout) {
      const timerId = setTimeout(callback, timeout);
      return () => clearTimeout(timerId);
    }
    const timerId = requestAnimationFrame(callback);
    return () => cancelAnimationFrame(timerId);
  };
  const cancelTimer = createTimer(() => {
    element.removeEventListener(type, callSync, true);
    callback();
  });
  const callSync = () => {
    cancelTimer();
    callback();
  };
  element.addEventListener(type, callSync, { once: true, capture: true });
  return cancelTimer;
}
```
The host scheduling state of one `queueBeforeEvent` call is modelled by
`QState`; the host delivering a timer expiry, delivering a DOM event of
the requested type, or the caller invoking the returned handle are the
three `QAction`s. -/

/-- Which host primitive `createTimer` chose for the timer trigger:
`setTimeout(callback, timeout)` or `requestAnimationFrame(callback)`. -/
inductive ScheduledTimer where
  | timeoutTimer (delay : Nat)
  | animationFrame
deriving DecidableEq, Repr

/-- JavaScript truthiness of the optional `timeout : number` argument:
`undefined` and `0` are falsy, every other number is truthy. -/
def jsTruthy : Option Nat → Bool
  | none => false
  | some n => n != 0

/-- Embedding of the `createTimer` branch of `queueBeforeEvent`
(`if (timeout) { setTimeout(callback, timeout); ... } else { requestAnimationFrame(callback); ... }`):
which primitive is scheduled for a given `timeout` argument. -/
def createTimer (timeout : Option Nat) : ScheduledTimer :=
  if jsTruthy timeout then ScheduledTimer.timeoutTimer (timeout.getD 0)
  else ScheduledTimer.animationFrame

/-- Host state of one `queueBeforeEvent` call: the timer chosen by
`createTimer`, whether that timer is still pending (not fired and not
cancelled), whether the capture-phase `callSync` listener is still
attached to the element, and how many times `callback` has run. -/
structure QState where
  timer : ScheduledTimer
  timerActive : Bool
  listenerAttached : Bool
  callbackRuns : Nat
deriving DecidableEq, Repr

/-- State right after `queueBeforeEvent(element, type, callback, timeout)`
returns: the timer is scheduled and the capture-phase listener attached. -/
def initQState (timeout : Option Nat) : QState :=
  { timer := createTimer timeout
    timerActive := true
    listenerAttached := true
    callbackRuns := 0 }

/-- The returned handle, `cancelTimer`: `clearTimeout(timerId)` or
`cancelAnimationFrame(timerId)`. Both only deactivate the pending timer
(a no-op if it already fired or was already cancelled); neither touches
the capture-phase listener. -/
def cancelTimer (s : QState) : QState :=
  { s with timerActive := false }

/-- Body of the timer callback passed to `createTimer`:
`element.removeEventListener(type, callSync, true); callback();`. -/
def timerCallbackBody (s : QState) : QState :=
  { s with listenerAttached := false, callbackRuns := s.callbackRuns + 1 }

/-- Body of the capture-phase listener `callSync`:
`cancelTimer(); callback();`. -/
def callSyncBody (s : QState) : QState :=
  let s1 := cancelTimer s
  { s1 with callbackRuns := s1.callbackRuns + 1 }

/-- The three things the environment can do to a `queueBeforeEvent` call:
the scheduled timer comes due, a DOM event of the requested type reaches
the element in the capture phase, or the caller invokes the returned
cancellation handle. -/
inductive QAction where
  | timerFires
  | eventFires
  | cancelInvoked
deriving DecidableEq, Repr

/-- Host semantics of one environment action. A timer that was cancelled
or already fired does nothing; a dispatched event runs the listener only
while it is attached, and `once: true` detaches the listener before the
handler body runs; the handle may be invoked at any time. -/
def qstep (s : QState) : QAction → QState
  | QAction.timerFires =>
      if s.timerActive then timerCallbackBody { s with timerActive := false } else s
  | QAction.eventFires =>
      if s.listenerAttached then callSyncBody { s with listenerAttached := false } else s
  | QAction.cancelInvoked => cancelTimer s

/-- A whole interaction: the environment actions applied in order. -/
def qrun (s : QState) (actions : List QAction) : QState :=
  actions.foldl qstep s

/-! ## isOpeningInNewTab / isDownloading (events.ts lines 28-65)

The DOM element reached through `event.currentTarget` is modelled by its
`tagName` and `type` properties; `isApple()` (imported from platform.ts,
outside this module) is modelled by the Boolean it returns. -/

/-- JavaScript `s.toLowerCase()` on a tag name. -/
def jsToLower (s : String) : String := s.map Char.toLower

/-- The fields of the element read by the two intent predicates. -/
structure DomElement where
  tagName : String
  type : String
deriving DecidableEq, Repr

/-- The fields of the mouse event read by the two intent predicates;
`currentTarget` is `none` when the property is null. -/
structure MouseEventRec where
  currentTarget : Option DomElement
  metaKey : Bool
  ctrlKey : Bool
  altKey : Bool
deriving DecidableEq, Repr

/-- Embedding of `isOpeningInNewTab`, with the result of the single
`isApple()` platform check passed in as `isAppleDevice`. -/
def isOpeningInNewTab (isAppleDevice : Bool) (event : MouseEventRec) : Bool :=
  match event.currentTarget with
  | none => false
  | some element =>
    if isAppleDevice && !event.metaKey then false
    else if !isAppleDevice && !event.ctrlKey then false
    else
      let tagName := jsToLower element.tagName
      if tagName == "a" then true
      else if tagName == "button" && element.type == "submit" then true
      else if tagName == "input" && element.type == "submit" then true
      else false

/-- Embedding of `isDownloading`; the source never calls `isApple()`, so
no platform parameter appears. -/
def isDownloading (event : MouseEventRec) : Bool :=
  match event.currentTarget with
  | none => false
  | some element =>
    let tagName := jsToLower element.tagName
    if !event.altKey then false
    else if tagName == "a" then true
    else if tagName == "button" && element.type == "submit" then true
    else if tagName == "input" && element.type == "submit" then true
    else false

/-- The element-type gate as the spec words it: the element exists and is
an anchor, or a button or input whose type is "submit". Stated from the
spec's side, to be compared with the sequential checks of the source. -/
def specElementGate : Option DomElement → Bool
  | none => false
  | some element =>
      jsToLower element.tagName == "a" ||
      ((jsToLower element.tagName == "button" || jsToLower element.tagName == "input") &&
        element.type == "submit")

/-! ## fireBlurEvent / fireFocusEvent (events.ts lines 89-108)

The host is modelled by the ordered log of events dispatched so far plus
an oracle `resp` giving, for each dispatched event, the Boolean that
`element.dispatchEvent` returns (false iff some listener called
preventDefault on a cancelable event, else true). -/

/-- The `FocusEventInit` fields the module touches; both default to
false as in the DOM event constructors. -/
structure FocusEventInit where
  bubbles : Bool := false
  cancelable : Bool := false
deriving DecidableEq, Repr

/-- One event as dispatched: the element it was dispatched on, the event
type string, and the init it was constructed from. -/
structure DispatchedEvent where
  target : Nat
  kind : String
  init : FocusEventInit
deriving DecidableEq, Repr

/-- The host: dispatch log and dispatch-result oracle. -/
structure Host where
  log : List DispatchedEvent
  resp : DispatchedEvent → Bool

/-- Host primitive `element.dispatchEvent(event)`: appends the event to
the log and returns the host's dispatch result for it. -/
def dispatchEvent (h : Host) (ev : DispatchedEvent) : Host × Bool :=
  ({ h with log := h.log ++ [ev] }, h.resp ev)

/-- Embedding of `fireBlurEvent(element, eventInit)`: dispatch a blur
event built from `eventInit`, then a focusout event built from
`{ ...eventInit, bubbles: true }`, and return the first dispatch result. -/
def fireBlurEvent (h : Host) (element : Nat) (eventInit : Option FocusEventInit) :
    Host × Bool :=
  let event : DispatchedEvent := { target := element, kind := "blur", init := eventInit.getD {} }
  let step1 := dispatchEvent h event
  let bubbleInit : FocusEventInit := { eventInit.getD {} with bubbles := true }
  let step2 := dispatchEvent step1.1 { target := element, kind := "focusout", init := bubbleInit }
  (step2.1, step1.2)

/-- Embedding of `fireFocusEvent(element, eventInit)`: focus then an
always-bubbling focusin, returning the first dispatch result. -/
def fireFocusEvent (h : Host) (element : Nat) (eventInit : Option FocusEventInit) :
    Host × Bool :=
  let event : DispatchedEvent := { target := element, kind := "focus", init := eventInit.getD {} }
  let step1 := dispatchEvent h event
  let bubbleInit : FocusEventInit := { eventInit.getD {} with bubbles := true }
  let step2 := dispatchEvent step1.1 { target := element, kind := "focusin", init := bubbleInit }
  (step2.1, step1.2)

/-! ## getInputType (events.ts lines 160-166)

The dynamic shape of the argument is made explicit: either a raw event,
or a wrapper with a `nativeEvent` field that may be null; the
`inputType` property of an event may be absent, present with a
non-string value, or present with a string value. -/

/-- Shape of the `inputType` property on the native event. -/
inductive InputTypeField where
  | absent
  | nonString
  | stringValue (s : String)
deriving DecidableEq, Repr

/-- A native event, as far as `getInputType` reads it. -/
structure JsEvent where
  inputType : InputTypeField
deriving DecidableEq, Repr

/-- The argument of `getInputType`: a raw event (never null, so the
`!nativeEvent` check passes), or a wrapper whose `nativeEvent` field may
be null. -/
inductive GetInputTypeArg where
  | ev (e : JsEvent)
  | wrapper (nativeEvent : Option JsEvent)
deriving DecidableEq, Repr

/-- Embedding of `getInputType`: unwrap `nativeEvent` when the field
exists, bail out on null, on an absent `inputType`, and on a non-string
`inputType`, else return the string. -/
def getInputType (event : GetInputTypeArg) : Option String :=
  let nativeEvent : Option JsEvent :=
    match event with
    | GetInputTypeArg.wrapper n => n
    | GetInputTypeArg.ev e => some e
  match nativeEvent with
  | none => none
  | some ne =>
    match ne.inputType with
    | InputTypeField.absent => none
    | InputTypeField.nonString => none
    | InputTypeField.stringValue s => some s

/-! ## addGlobalEventListener (events.ts lines 216-241)

A window and its (transitively nested) child frames form a tree; a node
flagged inaccessible models a cross-origin or sandboxed frame on which
`addEventListener` / `removeEventListener` / `frames` access throws. The
listener-attachment state of the whole tree is the list of window ids
currently holding the listener, in attachment order. -/

/-- A window: its id, whether accessing it throws, and its child frames. -/
inductive WindowTree where
  | mk (wid : Nat) (inaccessible : Bool) (frames : List WindowTree)

/-- The composite removal closure built by `addGlobalEventListener`: the
scope it removes from (id and accessibility) and the child removers
pushed during attachment. -/
inductive Remover where
  | mk (wid : Nat) (inaccessible : Bool) (children : List Remover)

mutual

/-- Embedding of `addGlobalEventListener(type, listener, options, scope)`.
Inside `try { ... } catch {}`: `scope.addEventListener` throws exactly on
an inaccessible scope — before the frame loop, so the catch leaves the
attachment state unchanged and no child removers pushed; on an
accessible scope the listener is appended and every child frame is
visited. The function is total: every host throw is caught, so no
exception reaches the caller. -/
def addGlobalEventListener (scope : WindowTree) (attached : List Nat) :
    List Nat × Remover :=
  match scope with
  | WindowTree.mk wid inacc frames =>
    if inacc then
      (attached, Remover.mk wid inacc [])
    else
      let res := attachFrames frames (attached ++ [wid])
      (res.1, Remover.mk wid inacc res.2)

/-- The loop `for (const frame of Array.from(scope.frames))
children.push(addGlobalEventListener(type, listener, options, frame))`. -/
def attachFrames (frames : List WindowTree) (attached : List Nat) :
    List Nat × List Remover :=
  match frames with
  | [] => (attached, [])
  | f :: rest =>
    let head := addGlobalEventListener f attached
    let tail := attachFrames rest head.1
    (tail.1, head.2 :: tail.2)

end

mutual

/-- Running the returned removal closure: `try { scope.removeEventListener }
catch {}` (the throw on an inaccessible scope is swallowed, leaving the
state unchanged), then each child remover in order. Total: the removal
propagates no exception. -/
def runRemover (r : Remover) (attached : List Nat) : List Nat :=
  match r with
  | Remover.mk wid inacc children =>
    let a1 := if inacc then attached else attached.erase wid
    runRemoverList children a1

/-- The loop `for (const remove of children) remove()`. -/
def runRemoverList (rs : List Remover) (attached : List Nat) : List Nat :=
  match rs with
  | [] => attached
  | r :: rest => runRemoverList rest (runRemover r attached)

end

mutual

/-- Ids of the windows reachable from the root through accessible
windows only — per the spec, exactly the windows the listener covers:
the root, then each accessible branch, a throwing frame cutting off only
its own subtree. -/
def accessibleIds : WindowTree → List Nat
  | WindowTree.mk wid inacc frames =>
    if inacc then [] else wid :: accessibleIdsList frames

/-- `accessibleIds` over a list of sibling frames, in order. -/
def accessibleIdsList : List WindowTree → List Nat
  | [] => []
  | f :: rest => accessibleIds f ++ accessibleIdsList rest

end

mutual

/-- The remover built for a scope, which depends only on the frame tree,
not on the attachment state. -/
def removerOf : WindowTree → Remover
  | WindowTree.mk wid inacc frames =>
    Remover.mk wid inacc (if inacc then [] else removerListOf frames)

/-- `removerOf` over a list of sibling frames. -/
def removerListOf : List WindowTree → List Remover
  | [] => []
  | f :: rest => removerOf f :: removerListOf rest

end

/-! ## Theorems -/

theorem qrun_cons (s : QState) (a : QAction) (as : List QAction) :
    qrun s (a :: as) = qrun (qstep s a) as := rfl

/-- Once both triggers are dead, every further environment action is a
no-op: the state is absorbing. -/
theorem qrun_inert (k : ScheduledTimer) (n : Nat) (actions : List QAction) :
    qrun ⟨k, false, false, n⟩ actions = ⟨k, false, false, n⟩ := by
  induction actions with
  | nil => rfl
  | cons a as ih =>
    rw [qrun_cons]
    have h : qstep (⟨k, false, false, n⟩ : QState) a = ⟨k, false, false, n⟩ := by
      cases a <;> rfl
    rw [h, ih]

/-- After the timer is cancelled, any run of timer expiries and further
handle invocations (no event of the listened type) leaves the state
unchanged: the listener stays attached and the callback never runs. -/
theorem qrun_cancelled_no_event (k : ScheduledTimer) (n : Nat) (actions : List QAction)
    (h : ∀ a ∈ actions, a ≠ QAction.eventFires) :
    qrun ⟨k, false, true, n⟩ actions = ⟨k, false, true, n⟩ := by
  induction actions with
  | nil => rfl
  | cons a as ih =>
    rw [qrun_cons]
    have ha : a ≠ QAction.eventFires := h a (List.mem_cons_self a as)
    have hstep : qstep (⟨k, false, true, n⟩ : QState) a = ⟨k, false, true, n⟩ := by
      cases a with
      | timerFires => rfl
      | eventFires => exact absurd rfl ha
      | cancelInvoked => rfl
    rw [hstep]
    exact ih fun a ha' => h a (List.mem_cons_of_mem _ ha')

/-- C1, counterexample. With `queueBeforeEvent(element, type, callback, 100)`,
invoking the returned handle before either trigger fires leaves the
capture-phase listener attached, and a subsequent event of the listened
type still runs the callback: the handle does not remove the listener
and does not suppress the callback. -/
theorem queueBeforeEvent_cancel_claim_counterexample :
    (qstep (initQState (some 100)) QAction.cancelInvoked).listenerAttached = true ∧
    (qrun (initQState (some 100))
      [QAction.cancelInvoked, QAction.eventFires]).callbackRuns = 1 := by
  exact ⟨rfl, rfl⟩

/-- C1, amended. Invoking the returned handle before either trigger has
fired cancels only the timer: as long as no event of the listened type
arrives, the callback never runs — but the capture-phase listener stays
attached, and a later event of that type still runs the callback. -/
theorem queueBeforeEvent_cancel_amended (timeout : Option Nat) (actions : List QAction)
    (h : ∀ a ∈ actions, a ≠ QAction.eventFires) :
    (qrun (initQState timeout) (QAction.cancelInvoked :: actions)).callbackRuns = 0 ∧
    (qrun (initQState timeout) (QAction.cancelInvoked :: actions)).listenerAttached = true ∧
    (qstep (qrun (initQState timeout) (QAction.cancelInvoked :: actions))
      QAction.eventFires).callbackRuns = 1 := by
  rw [qrun_cons]
  have h1 : qstep (initQState timeout) QAction.cancelInvoked =
      ⟨createTimer timeout, false, true, 0⟩ := rfl
  rw [h1, qrun_cancelled_no_event _ _ _ h]
  exact ⟨rfl, rfl, rfl⟩

/-- Witness for the amended C1, at `timeout = 100` and the trace
[cancel, timer expiry]. -/
theorem queueBeforeEvent_cancel_amended_witness :
    (qrun (initQState (some 100))
      (QAction.cancelInvoked :: [QAction.timerFires])).callbackRuns = 0 ∧
    (qrun (initQState (some 100))
      (QAction.cancelInvoked :: [QAction.timerFires])).listenerAttached = true ∧
    (qstep (qrun (initQState (some 100)) (QAction.cancelInvoked :: [QAction.timerFires]))
      QAction.eventFires).callbackRuns = 1 :=
  queueBeforeEvent_cancel_amended (some 100) [QAction.timerFires] (by decide)

/-- C2. For every trace of environment actions in which the returned
handle is never invoked, the callback runs at most once, and as soon as
the trace contains a trigger (a timer expiry or an event of the listened
type) the callback has run exactly once and both triggers are dead: the
timer is no longer pending and the listener is detached, so whichever
trigger fired first cancelled the other. -/
theorem queueBeforeEvent_race_exactly_once (timeout : Option Nat) (actions : List QAction)
    (h : ∀ a ∈ actions, a ≠ QAction.cancelInvoked) :
    (qrun (initQState timeout) actions).callbackRuns ≤ 1 ∧
    ((∃ a ∈ actions, a = QAction.timerFires ∨ a = QAction.eventFires) →
      (qrun (initQState timeout) actions).callbackRuns = 1 ∧
      (qrun (initQState timeout) actions).timerActive = false ∧
      (qrun (initQState timeout) actions).listenerAttached = false) := by
  cases actions with
  | nil =>
    refine ⟨Nat.zero_le 1, ?_⟩
    rintro ⟨a, ha, _⟩
    exact absurd ha (List.not_mem_nil a)
  | cons a as =>
    have ha : a ≠ QAction.cancelInvoked := h a (List.mem_cons_self a as)
    have hstep : qstep (initQState timeout) a = ⟨createTimer timeout, false, false, 1⟩ := by
      cases a with
      | timerFires => rfl
      | eventFires => rfl
      | cancelInvoked => exact absurd rfl ha
    rw [qrun_cons, hstep, qrun_inert]
    exact ⟨Nat.le_refl 1, fun _ => ⟨rfl, rfl, rfl⟩⟩

/-- Witness for C2, with no timeout argument and the trace
[event, timer expiry]. -/
theorem queueBeforeEvent_race_exactly_once_witness :
    (qrun (initQState none) [QAction.eventFires, QAction.timerFires]).callbackRuns ≤ 1 ∧
    ((∃ a ∈ [QAction.eventFires, QAction.timerFires],
        a = QAction.timerFires ∨ a = QAction.eventFires) →
      (qrun (initQState none) [QAction.eventFires, QAction.timerFires]).callbackRuns = 1 ∧
      (qrun (initQState none) [QAction.eventFires, QAction.timerFires]).timerActive = false ∧
      (qrun (initQState none)
        [QAction.eventFires, QAction.timerFires]).listenerAttached = false) :=
  queueBeforeEvent_race_exactly_once none [QAction.eventFires, QAction.timerFires] (by decide)

/-- C3, counterexample. With the numeric timeout value 0, `createTimer`
schedules a `requestAnimationFrame` callback, not a `setTimeout` with
delay 0: `if (timeout)` tests JavaScript truthiness, and 0 is falsy. -/
theorem createTimer_zero_timeout_counterexample :
    createTimer (some 0) = ScheduledTimer.animationFrame ∧
    createTimer (some 0) ≠ ScheduledTimer.timeoutTimer 0 := by
  exact ⟨rfl, by decide⟩

/-- C3, amended. The timer trigger is `setTimeout` with the given delay
exactly when the timeout argument is given and nonzero (truthy); when it
is absent or 0, the trigger is `requestAnimationFrame`. -/
theorem createTimer_selection (d : Nat) (hd : d ≠ 0) :
    createTimer (some d) = ScheduledTimer.timeoutTimer d ∧
    createTimer none = ScheduledTimer.animationFrame ∧
    createTimer (some 0) = ScheduledTimer.animationFrame := by
  refine ⟨?_, rfl, rfl⟩
  have ht : jsTruthy (some d) = true := by
    simp [jsTruthy, hd]
  simp [createTimer, ht]

/-- Witness for the amended C3, at delay 100. -/
theorem createTimer_selection_witness :
    createTimer (some 100) = ScheduledTimer.timeoutTimer 100 ∧
    createTimer none = ScheduledTimer.animationFrame ∧
    createTimer (some 0) = ScheduledTimer.animationFrame :=
  createTimer_selection 100 (by decide)

/-- C10. Invoking the returned cancellation handle a second (or any
further) time is a no-op: it leaves the state exactly as after the first
invocation, and every continuation of the interaction behaves the same.
This holds for every state of either timer configuration (`setTimeout`
as well as `requestAnimationFrame`), since `clearTimeout` and
`cancelAnimationFrame` alike only deactivate the pending timer. -/
theorem queueBeforeEvent_cancel_idempotent (s : QState) (actions : List QAction) :
    qstep (qstep s QAction.cancelInvoked) QAction.cancelInvoked =
      qstep s QAction.cancelInvoked ∧
    qrun (qstep (qstep s QAction.cancelInvoked) QAction.cancelInvoked) actions =
      qrun (qstep s QAction.cancelInvoked) actions :=
  ⟨rfl, rfl⟩

/-- Boolean string comparison agrees with decidable propositional
equality. -/
theorem string_beq_eq_decide (s t : String) : (s == t) = decide (s = t) := rfl

/-- C6. `isOpeningInNewTab` returns true exactly when the current target
exists, the platform-appropriate modifier is held — metaKey when the one
platform check says Apple, ctrlKey otherwise — and the element passes
the gate: an anchor, or a button or input whose type is "submit". In
particular it is false whenever `currentTarget` is null. -/
theorem isOpeningInNewTab_characterization (isAppleDevice : Bool) (event : MouseEventRec) :
    isOpeningInNewTab isAppleDevice event =
      (event.currentTarget.isSome &&
        (if isAppleDevice then event.metaKey else event.ctrlKey) &&
        specElementGate event.currentTarget) := by
  cases event with
  | mk ct meta ctrl alt =>
    cases ct with
    | none => simp [isOpeningInNewTab, specElementGate]
    | some element =>
      cases isAppleDevice <;> cases meta <;> cases ctrl <;>
        simp [isOpeningInNewTab, specElementGate, Bool.and_or_distrib_right,
          string_beq_eq_decide]

/-- C7. `isDownloading` returns true exactly when the current target
exists, altKey is held, and the element passes the same gate; it never
consults the platform (the definition takes no platform input), and it
is false whenever `currentTarget` is null. -/
theorem isDownloading_characterization (event : MouseEventRec) :
    isDownloading event =
      (event.currentTarget.isSome && event.altKey && specElementGate event.currentTarget) := by
  cases event with
  | mk ct meta ctrl alt =>
    cases ct with
    | none => simp [isDownloading, specElementGate]
    | some element =>
      cases alt <;>
        simp [isDownloading, specElementGate, Bool.and_or_distrib_right,
          string_beq_eq_decide]

/-- C8. `fireBlurEvent` dispatches exactly two events, in order: a blur
event built from the given init, then a focusout event whose init always
has bubbles true; it returns the host's dispatch result of the primary
blur event. `fireFocusEvent` mirrors this with focus then an
always-bubbling focusin. -/
theorem fireBlurFocusEvent_dispatch_pair (h : Host) (element : Nat)
    (eventInit : Option FocusEventInit) :
    (fireBlurEvent h element eventInit).1.log =
      h.log ++ [{ target := element, kind := "blur", init := eventInit.getD {} },
        { target := element, kind := "focusout",
          init := { eventInit.getD {} with bubbles := true } }] ∧
    (fireBlurEvent h element eventInit).2 =
      h.resp { target := element, kind := "blur", init := eventInit.getD {} } ∧
    ({ eventInit.getD {} with bubbles := true } : FocusEventInit).bubbles = true ∧
    (fireFocusEvent h element eventInit).1.log =
      h.log ++ [{ target := element, kind := "focus", init := eventInit.getD {} },
        { target := element, kind := "focusin",
          init := { eventInit.getD {} with bubbles := true } }] ∧
    (fireFocusEvent h element eventInit).2 =
      h.resp { target := element, kind := "focus", init := eventInit.getD {} } := by
  refine ⟨?_, rfl, rfl, ?_, rfl⟩ <;>
    simp [fireBlurEvent, fireFocusEvent, dispatchEvent]

/-- C9. `getInputType` returns a string exactly when the unwrapped
native event exists and its `inputType` property is present with that
string value; in every other case — a wrapper whose `nativeEvent` is
null, an absent `inputType`, a non-string `inputType` — it returns
nothing, and being a total function it never throws. -/
theorem getInputType_characterization (arg : GetInputTypeArg) (s : String) :
    (getInputType arg = some s ↔
      arg = GetInputTypeArg.ev ⟨InputTypeField.stringValue s⟩ ∨
      arg = GetInputTypeArg.wrapper (some ⟨InputTypeField.stringValue s⟩)) ∧
    getInputType (GetInputTypeArg.wrapper none) = none := by
  refine ⟨?_, rfl⟩
  cases arg with
  | ev e =>
    cases e with
    | mk it => cases it <;> simp [getInputType]
  | wrapper n =>
    cases n with
    | none => simp [getInputType]
    | some e =>
      cases e with
      | mk it => cases it <;> simp [getInputType]

mutual

/-- The attachment state after `addGlobalEventListener`: the previous
state followed by exactly the accessible windows of the scope, in
pre-order. -/
theorem attach_attached_eq (scope : WindowTree) (attached : List Nat) :
    (addGlobalEventListener scope attached).1 = attached ++ accessibleIds scope := by
  cases scope with
  | mk wid inacc frames =>
    cases inacc with
    | true => simp [addGlobalEventListener, accessibleIds]
    | false =>
      simp only [addGlobalEventListener, accessibleIds, Bool.false_eq_true,
        if_false, ite_false]
      rw [attachFrames_attached_eq frames (attached ++ [wid])]
      simp

/-- The attachment state after the frame loop: the previous state
followed by the accessible windows of each sibling, in order. -/
theorem attachFrames_attached_eq (frames : List WindowTree) (attached : List Nat) :
    (attachFrames frames attached).1 = attached ++ accessibleIdsList frames := by
  cases frames with
  | nil => simp [attachFrames, accessibleIdsList]
  | cons f rest =>
    simp only [attachFrames, accessibleIdsList]
    rw [attach_attached_eq f attached, attachFrames_attached_eq rest _]
    simp

end

mutual

/-- The remover built by `addGlobalEventListener` depends only on the
frame tree, not on the attachment state. -/
theorem attach_remover_eq (scope : WindowTree) (attached : List Nat) :
    (addGlobalEventListener scope attached).2 = removerOf scope := by
  cases scope with
  | mk wid inacc frames =>
    cases inacc with
    | true => simp [addGlobalEventListener, removerOf]
    | false =>
      simp only [addGlobalEventListener, removerOf, Bool.false_eq_true, if_false, ite_false]
      rw [attachFrames_remover_eq frames (attached ++ [wid])]

/-- The removers pushed by the frame loop depend only on the sibling
frame trees. -/
theorem attachFrames_remover_eq (frames : List WindowTree) (attached : List Nat) :
    (attachFrames frames attached).2 = removerListOf frames := by
  cases frames with
  | nil => simp [attachFrames, removerListOf]
  | cons f rest =>
    simp only [attachFrames, removerListOf]
    rw [attach_remover_eq f attached, attachFrames_remover_eq rest _]

end

mutual

/-- Running the remover of a scope on a state that starts with exactly
the accessible windows of that scope removes them all and leaves the
rest untouched. -/
theorem runRemover_accessible (scope : WindowTree) (tail : List Nat) :
    runRemover (removerOf scope) (accessibleIds scope ++ tail) = tail := by
  cases scope with
  | mk wid inacc frames =>
    cases inacc with
    | true =>
      simp [removerOf, accessibleIds, runRemover, runRemoverList]
    | false =>
      simp only [removerOf, accessibleIds, runRemover, Bool.false_eq_true,
        if_false, ite_false, List.cons_append, List.erase_cons_head]
      exact runRemoverList_accessible frames tail

/-- Running the removers of sibling frames on a state that starts with
exactly their accessible windows removes them all in order. -/
theorem runRemoverList_accessible (frames : List WindowTree) (tail : List Nat) :
    runRemoverList (removerListOf frames) (accessibleIdsList frames ++ tail) = tail := by
  cases frames with
  | nil => simp [removerListOf, accessibleIdsList, runRemoverList]
  | cons f rest =>
    simp only [removerListOf, accessibleIdsList, runRemoverList, List.append_assoc]
    rw [runRemover_accessible f (accessibleIdsList rest ++ tail)]
    exact runRemoverList_accessible rest tail

end

/-- C4. For every frame tree — including trees in which some frames are
inaccessible and every access to them throws — `addGlobalEventListener`
returns normally (it is a total function: every host throw is swallowed
by the modelled `try { } catch { }`), and the listener ends up attached
to exactly the windows reachable through accessible frames: the root,
each accessible sibling and each accessible descendant, a throwing
frame cutting off only its own subtree. -/
theorem addGlobalEventListener_attach_isolation (scope : WindowTree) (attached : List Nat) :
    (addGlobalEventListener scope attached).1 = attached ++ accessibleIds scope :=
  attach_attached_eq scope attached

/-- C5. The removal function returned by `addGlobalEventListener`
detaches the listener from the root scope and, recursively, from every
frame the attachment succeeded on: run on a state holding exactly the
windows that were attached (plus anything attached later), it removes
precisely those windows. It is a total function — the throw that
`removeEventListener` raises on an inaccessible scope is swallowed, so
the removal propagates no exception. -/
theorem addGlobalEventListener_remove_all (scope : WindowTree) (attached tail : List Nat) :
    runRemover (addGlobalEventListener scope attached).2 (accessibleIds scope ++ tail) = tail := by
  rw [attach_remover_eq scope attached]
  exact runRemover_accessible scope tail

end Events
